import Mathlib

/-!
Verification of the slowed-and-reverb audio engine.

Shallow embedding of `src/audio/helpers.ts` and `src/audio/engine.ts`.
Numbers are modelled as exact rationals.  The ambient host services that the
code consumes are passed explicitly:
  * the real-time audio clock `ctx.currentTime` becomes a `now : ℚ` argument
    of every operation that reads it;
  * `Math.random()` becomes a function `rand : ℕ → ℕ → ℚ` giving the draw
    used at channel `ch`, sample `i` (its codomain is `[0, 1)` by the host
    contract, stated as a hypothesis where needed);
  * `Math.pow` with a non-integer exponent becomes an abstract binary
    function `pw : ℚ → ℚ → ℚ`.
-/

/-! ### Waveform encoder sample path (helpers.ts, audioBufferToWav lines 30-36)

The per-sample conversion of the encoder:
  `let s = Math.max(-1, Math.min(1, channels[ch][i]));`
  `s = s < 0 ? s * 0x8000 : s * 0x7fff;`
  `view.setInt16(offset, s, true);`
`DataView.setInt16` converts its numeric argument by truncation toward zero
and then stores the low 16 bits (two's complement wraparound). -/

/-- Hard clamp of a sample to [-1, 1] (helpers.ts line 32). -/
def clampSample (x : ℚ) : ℚ := max (-1) (min 1 x)

/-- Asymmetric scaling of a clamped sample (helpers.ts line 33). -/
def scaleSample (x : ℚ) : ℚ :=
  if clampSample x < 0 then clampSample x * 32768 else clampSample x * 32767

/-- Truncation toward zero, as performed on the argument of setInt16. -/
def jsTrunc (x : ℚ) : ℤ := if 0 ≤ x then ⌊x⌋ else ⌈x⌉

/-- Two's-complement wraparound of an integer into the signed 16-bit range,
as performed by the 16-bit store of setInt16. -/
def wrap16 (z : ℤ) : ℤ := (z + 32768) % 65536 - 32768

/-- The complete sample path of the waveform encoder: clamp, scale,
truncate, store as signed 16-bit (helpers.ts lines 32-34). -/
def wavEncodeSample (x : ℚ) : ℤ := wrap16 (jsTrunc (scaleSample x))

/-! ### Impulse response generator (helpers.ts, makeImpulseResponse lines 40-55) -/

/-- Buffer length of the generated impulse response:
`Math.max(1, Math.floor(ctx.sampleRate * seconds))` (helpers.ts line 45). -/
def irLen (sr seconds : ℚ) : ℕ := max 1 (Int.toNat ⌊sr * seconds⌋)

/-- Length the specification text prescribes instead: round, not floor
("two-channel buffer of length round(sampleRate * tailSeconds), minimum
length 1 sample").  Kept separate from `irLen` for comparison. -/
def irLenSpec (sr seconds : ℚ) : ℕ := max 1 (Int.toNat (round (sr * seconds)))

/-- A generated audio buffer: channel count, frame length, sample rate and
per-channel sample data. -/
structure IRBuffer where
  numberOfChannels : ℕ
  length : ℕ
  sampleRate : ℚ
  data : List (List ℚ)

/-- makeImpulseResponse (helpers.ts lines 40-55): a two-channel buffer of
`irLen` frames in which sample `i` of each channel is
`(Math.random() * 2 - 1) * Math.pow(1 - i / len, decay)`. -/
def makeImpulseResponse (rand : ℕ → ℕ → ℚ) (pw : ℚ → ℚ → ℚ)
    (sr seconds decay : ℚ) : IRBuffer :=
  let len := irLen sr seconds
  { numberOfChannels := 2
    length := len
    sampleRate := sr
    data := (List.range 2).map fun ch =>
      (List.range len).map fun i =>
        (rand ch i * 2 - 1) * pw (1 - (i : ℚ) / (len : ℚ)) decay }

/-! ### The playback engine (engine.ts) -/

/-- A decoded audio buffer (the Loaded Signal): channel count and duration
in seconds.  Durations of decoded buffers are nonnegative. -/
structure AudioBuf where
  numberOfChannels : ℕ
  duration : ℚ
  dur_nonneg : 0 ≤ duration

/-- The module-level mutable state of `namespace Engine` in engine.ts.
`buffer` is the Loaded Signal (`undefined` before the first successful
load), `hasSource` records whether `source` holds a buffer-source node
(it is set by `createBufferSource` and never cleared — `source?.stop()`
stops the node but keeps the reference), `ctxRate` is the fixed
`ctx.sampleRate` of the real-time context, and `convolverLen` is the frame
length of the impulse response currently installed on the convolver. -/
structure EngineState where
  pausedAt : ℚ
  startedAt : ℚ
  isPlaying : Bool
  playbackRate : ℚ
  reverbVolume : ℚ
  reverbLength : ℚ
  buffer : Option AudioBuf
  hasSource : Bool
  manualEnd : Bool
  ctxRate : ℚ
  convolverLen : Option ℕ

namespace Engine

/-- Initial module state: `pausedAt = 0`, `startedAt = 0`,
`isPlaying = false`, `playbackRate = 1.0`, `reverbVolume = 0`,
`reverbLength = 0`, no buffer, no source (engine.ts lines 97-111). -/
def initState (sr : ℚ) : EngineState :=
  { pausedAt := 0, startedAt := 0, isPlaying := false
    playbackRate := 1, reverbVolume := 0, reverbLength := 0
    buffer := none, hasSource := false, manualEnd := false
    ctxRate := sr, convolverLen := none }

/-- getPosition (engine.ts lines 147-158): 0 with no buffer; while playing,
`(ctx.currentTime - startedAt) * playbackRate` clamped to [0, duration];
while paused, the stored `pausedAt` verbatim. -/
def getPosition (s : EngineState) (now : ℚ) : ℚ :=
  match s.buffer with
  | none => 0
  | some b =>
    match s.isPlaying with
    | true => max 0 (min b.duration ((now - s.startedAt) * s.playbackRate))
    | false => s.pausedAt

/-- getDuration (engine.ts lines 159-161): `buffer ? buffer.duration : 0`. -/
def getDuration (s : EngineState) : ℚ :=
  match s.buffer with
  | none => 0
  | some b => b.duration

/-- getIsPlaying (engine.ts lines 162-164). -/
def getIsPlaying (s : EngineState) : Bool := s.isPlaying

/-- pause (engine.ts lines 182-195): early return with no buffer; otherwise
sets `manualEnd`, assigns `pausedAt = getPosition()` (line 185, a value
immediately overwritten), then reassigns
`pausedAt = clamp((ctx.currentTime - startedAt) * playbackRate, 0, duration)`
(lines 187-190), stops the source node (keeping the reference) and clears
`isPlaying`. -/
def pause (s : EngineState) (now : ℚ) : EngineState :=
  match s.buffer with
  | none => s
  | some b =>
    { s with manualEnd := true
             pausedAt := max 0 (min b.duration ((now - s.startedAt) * s.playbackRate))
             isPlaying := false }

/-- stop (engine.ts lines 196-199): `pause()` then `pausedAt = 0`
(the reset happens even when `pause` early-returned on an empty engine). -/
def stop (s : EngineState) (now : ℚ) : EngineState :=
  { pause s now with pausedAt := 0 }

/-- play (engine.ts lines 167-181): no-op with no buffer or while already
playing; otherwise resumes the context, creates a fresh source node bound
to the buffer and current rate (`createBufferSource`, lines 134-144),
starts it at `pausedAt`, clears `manualEnd`, sets `isPlaying` and
`startedAt = ctx.currentTime - clamp(pausedAt, 0, duration) / playbackRate`.
`now` is the clock value after the resume completes. -/
def play (s : EngineState) (now : ℚ) : EngineState :=
  match s.buffer with
  | none => s
  | some b =>
    match s.isPlaying with
    | true => s
    | false =>
      { s with hasSource := true, manualEnd := false, isPlaying := true
               startedAt := now - (max 0 (min b.duration s.pausedAt)) / s.playbackRate }

/-- seek (engine.ts lines 200-212): no-op with no buffer; otherwise clamps
the target to [0, duration], pauses, stores the target as `pausedAt`, and
re-invokes `play` when the engine was playing before the seek.  The inner
`play` is asynchronous in the source, so it may observe a later clock value
`now2`. -/
def seek (s : EngineState) (time now now2 : ℚ) : EngineState :=
  match s.buffer with
  | none => s
  | some b =>
    let target := max 0 (min b.duration time)
    let s2 := { pause s now with pausedAt := target }
    match s.isPlaying with
    | true => play s2 now2
    | false => s2

/-- load, successful decode (engine.ts lines 129-133): `stop()` runs first,
then the decoded buffer replaces the previous one. -/
def load (s : EngineState) (now : ℚ) (b : AudioBuf) : EngineState :=
  { stop s now with buffer := some b }

/-- load whose decode fails (engine.ts lines 129-133): `stop()` has already
run unconditionally; the `buffer = ...` assignment never executes, so the
previous buffer survives but the transport has been stopped. -/
def loadFail (s : EngineState) (now : ℚ) : EngineState := stop s now

/-- getPlaybackRate (engine.ts lines 216-218). -/
def getPlaybackRate (s : EngineState) : ℚ := s.playbackRate

/-- setPlaybackRate (engine.ts lines 219-222): stores the argument without
validation (the live source node additionally receives a smoothed ramp). -/
def setPlaybackRate (s : EngineState) (speed : ℚ) : EngineState :=
  { s with playbackRate := speed }

/-- getReverbVolume (engine.ts lines 224-226). -/
def getReverbVolume (s : EngineState) : ℚ := s.reverbVolume

/-- setReverbVolume (engine.ts lines 227-230): stores the argument without
validation (the wet gain node additionally receives a smoothed ramp). -/
def setReverbVolume (s : EngineState) (volume : ℚ) : EngineState :=
  { s with reverbVolume := volume }

/-- getReverbLength (engine.ts lines 232-234). -/
def getReverbLength (s : EngineState) : ℚ := s.reverbLength

/-- setReverbLength (engine.ts lines 235-239): stores the argument without
validation and regenerates the impulse response on the convolver at the
operating sample rate. -/
def setReverbLength (s : EngineState) (seconds : ℚ) : EngineState :=
  { s with reverbLength := seconds
           convolverLen := some (irLen s.ctxRate seconds) }

/-- The `onended` handler installed by createBufferSource (engine.ts
lines 140-142): `if (!manualEnd) stop();`.  Fired when the active source
reaches its natural end. -/
def onEnded (s : EngineState) (now : ℚ) : EngineState :=
  match s.manualEnd with
  | true => s
  | false => stop s now

/-- Metadata of the offline render result: channel count of the
OfflineAudioContext and its frame length. -/
structure RenderResult where
  numberOfChannels : ℕ
  frames : ℤ
deriving DecidableEq

/-- renderWav (engine.ts lines 242-273): `if (!source) return;` makes the
result `none` whenever no source node has ever been created; otherwise an
OfflineAudioContext with the buffer's channel count and
`Math.ceil((buffer.duration / playbackRate + reverbLength) * ctx.sampleRate)`
frames renders the graph and the result is encoded to a wav blob.  With a
source but no buffer the source line `buffer.duration` would throw; that
state is unreachable and is mapped to `none` here. -/
def renderWav (s : EngineState) : Option RenderResult :=
  match s.hasSource, s.buffer with
  | false, _ => none
  | true, none => none
  | true, some b =>
    some { numberOfChannels := b.numberOfChannels
           frames := ⌈(b.duration / s.playbackRate + s.reverbLength) * s.ctxRate⌉ }

end Engine


/-! ### Reachable engine states and the position invariant -/

/-- States reachable from the initial module state by the public operations
(and the natural-end event), at arbitrary clock values and arguments. -/
inductive Reachable : EngineState → Prop where
  | init (sr : ℚ) : Reachable (Engine.initState sr)
  | load {s : EngineState} (now : ℚ) (b : AudioBuf) :
      Reachable s → Reachable (Engine.load s now b)
  | loadFail {s : EngineState} (now : ℚ) :
      Reachable s → Reachable (Engine.loadFail s now)
  | play {s : EngineState} (now : ℚ) :
      Reachable s → Reachable (Engine.play s now)
  | pause {s : EngineState} (now : ℚ) :
      Reachable s → Reachable (Engine.pause s now)
  | stop {s : EngineState} (now : ℚ) :
      Reachable s → Reachable (Engine.stop s now)
  | seek {s : EngineState} (time now now2 : ℚ) :
      Reachable s → Reachable (Engine.seek s time now now2)
  | setPlaybackRate {s : EngineState} (v : ℚ) :
      Reachable s → Reachable (Engine.setPlaybackRate s v)
  | setReverbVolume {s : EngineState} (v : ℚ) :
      Reachable s → Reachable (Engine.setReverbVolume s v)
  | setReverbLength {s : EngineState} (v : ℚ) :
      Reachable s → Reachable (Engine.setReverbLength s v)
  | ended {s : EngineState} (now : ℚ) :
      Reachable s → Reachable (Engine.onEnded s now)

/-- State invariant maintained by every operation: the stored paused-at
value lies in [0, duration], playback implies a loaded buffer, and an
existing source node implies a loaded buffer. -/
def EngineInv (s : EngineState) : Prop :=
  0 ≤ s.pausedAt ∧ s.pausedAt ≤ Engine.getDuration s ∧
  (s.isPlaying = true → s.buffer.isSome = true) ∧
  (s.hasSource = true → s.buffer.isSome = true)

theorem getDuration_nonneg (s : EngineState) : 0 ≤ Engine.getDuration s := by
  unfold Engine.getDuration
  cases h : s.buffer with
  | none => exact le_refl 0
  | some b => exact b.dur_nonneg

theorem clamp_nonneg (d x : ℚ) : 0 ≤ max 0 (min d x) := le_max_left 0 _

theorem clamp_le {d : ℚ} (x : ℚ) (hd : 0 ≤ d) : max 0 (min d x) ≤ d :=
  max_le hd (min_le_left d x)

theorem inv_pause {s : EngineState} (now : ℚ) (h : EngineInv s) :
    EngineInv (Engine.pause s now) := by
  obtain ⟨h1, h2, h3, h4⟩ := h
  unfold EngineInv Engine.pause
  cases hb : s.buffer with
  | none => exact ⟨h1, h2, h3, h4⟩
  | some b =>
    refine ⟨clamp_nonneg _ _, ?_, by simp, ?_⟩
    · simp only [Engine.getDuration]
      exact clamp_le _ b.dur_nonneg
    · intro hs
      simp only
      exact rfl

theorem inv_stop {s : EngineState} (now : ℚ) (h : EngineInv s) :
    EngineInv (Engine.stop s now) := by
  have hp := inv_pause now h
  obtain ⟨p1, p2, p3, p4⟩ := hp
  unfold Engine.stop
  exact ⟨le_refl 0, getDuration_nonneg _, p3, p4⟩

theorem stop_not_playing {s : EngineState} (now : ℚ) (h : EngineInv s) :
    (Engine.stop s now).isPlaying = false := by
  obtain ⟨h1, h2, h3, h4⟩ := h
  unfold Engine.stop Engine.pause
  cases hb : s.buffer with
  | none =>
    simp only
    cases hp : s.isPlaying with
    | false => rfl
    | true =>
      have hsome := h3 hp
      rw [hb] at hsome
      exact absurd hsome (by simp)
  | some b => rfl

theorem inv_play {s : EngineState} (now : ℚ) (h : EngineInv s) :
    EngineInv (Engine.play s now) := by
  obtain ⟨h1, h2, h3, h4⟩ := h
  unfold EngineInv Engine.play
  cases hb : s.buffer with
  | none => exact ⟨h1, h2, h3, h4⟩
  | some b =>
    cases hp : s.isPlaying with
    | true => exact ⟨h1, h2, h3, h4⟩
    | false =>
      have h2b : s.pausedAt ≤ b.duration := by
        unfold Engine.getDuration at h2
        rw [hb] at h2
        exact h2
      exact ⟨h1, h2b, fun _ => rfl, fun _ => rfl⟩

theorem inv_load {s : EngineState} (now : ℚ) (b : AudioBuf) (_h : EngineInv s) :
    EngineInv (Engine.load s now b) := by
  unfold EngineInv Engine.load
  refine ⟨le_refl 0, ?_, fun _ => rfl, fun _ => rfl⟩
  simp only [Engine.getDuration]
  exact b.dur_nonneg

theorem inv_seek {s : EngineState} (time now now2 : ℚ) (h : EngineInv s) :
    EngineInv (Engine.seek s time now now2) := by
  unfold Engine.seek
  cases hb : s.buffer with
  | none => exact h
  | some b =>
    have hpause := inv_pause now h
    have hmid : EngineInv { Engine.pause s now with
        pausedAt := max 0 (min b.duration time) } := by
      obtain ⟨p1, p2, p3, p4⟩ := hpause
      have hbuf : (Engine.pause s now).buffer = s.buffer := by
        unfold Engine.pause
        rw [hb]
      refine ⟨clamp_nonneg _ _, ?_, p3, p4⟩
      show max 0 (min b.duration time) ≤ Engine.getDuration _
      unfold Engine.getDuration
      rw [hbuf, hb]
      exact clamp_le _ b.dur_nonneg
    cases hp : s.isPlaying with
    | true => exact inv_play now2 hmid
    | false => exact hmid

theorem inv_setters {s : EngineState} (v : ℚ) (h : EngineInv s) :
    EngineInv (Engine.setPlaybackRate s v) ∧ EngineInv (Engine.setReverbVolume s v) ∧
    EngineInv (Engine.setReverbLength s v) := by
  obtain ⟨h1, h2, h3, h4⟩ := h
  exact ⟨⟨h1, h2, h3, h4⟩, ⟨h1, h2, h3, h4⟩, ⟨h1, h2, h3, h4⟩⟩

theorem inv_onEnded {s : EngineState} (now : ℚ) (h : EngineInv s) :
    EngineInv (Engine.onEnded s now) := by
  unfold Engine.onEnded
  cases hm : s.manualEnd with
  | true => exact h
  | false => exact inv_stop now h

theorem reachable_inv {s : EngineState} (h : Reachable s) : EngineInv s := by
  induction h with
  | init sr =>
    exact ⟨le_refl 0, le_refl 0, by intro hc; exact absurd hc (by simp [Engine.initState]),
           by intro hc; exact absurd hc (by simp [Engine.initState])⟩
  | load now b _ ih => exact inv_load now b ih
  | loadFail now _ ih => exact inv_stop now ih
  | play now _ ih => exact inv_play now ih
  | pause now _ ih => exact inv_pause now ih
  | stop now _ ih => exact inv_stop now ih
  | seek time now now2 _ ih => exact inv_seek time now now2 ih
  | setPlaybackRate v _ ih => exact (inv_setters v ih).1
  | setReverbVolume v _ ih => exact (inv_setters v ih).2.1
  | setReverbLength v _ ih => exact (inv_setters v ih).2.2
  | ended now _ ih => exact inv_onEnded now ih

/-! ### Concrete scenario states used by witnesses and counterexamples -/

/-- A decoded mono signal of duration 10 seconds. -/
def buf10 : AudioBuf := { numberOfChannels := 1, duration := 10, dur_nonneg := by norm_num }

/-- Engine (operating sample rate 10) right after a successful `load` of
`buf10`; `play` has never been called. -/
def sLoaded : EngineState := Engine.load (Engine.initState 10) 0 buf10

/-- The same engine after `play()` at clock time 0. -/
def sPlayed : EngineState := Engine.play sLoaded 0

/-- `sPlayed` after the first `pause()` at clock time 2. -/
def sPausedOnce : EngineState := Engine.pause sPlayed 2

/-- `sPausedOnce` after a second `pause()` at clock time 5. -/
def sPausedTwice : EngineState := Engine.pause sPausedOnce 5

/-! ### Claims -/

/-- Claim C5: on every reachable engine state, the reported position and the
stored paused-at value are clamped to [0, duration of the Loaded Signal]
(with duration 0 when nothing is loaded), at every clock value. -/
theorem position_always_clamped {s : EngineState} (h : Reachable s) (now : ℚ) :
    0 ≤ Engine.getPosition s now ∧
    Engine.getPosition s now ≤ Engine.getDuration s ∧
    0 ≤ s.pausedAt ∧ s.pausedAt ≤ Engine.getDuration s := by
  obtain ⟨h1, h2, h3, h4⟩ := reachable_inv h
  refine ⟨?_, ?_, h1, h2⟩
  · unfold Engine.getPosition
    cases hb : s.buffer with
    | none => exact le_refl 0
    | some b =>
      cases hp : s.isPlaying with
      | true => exact clamp_nonneg _ _
      | false => exact h1
  · have h2b := h2
    unfold Engine.getDuration at h2b ⊢
    unfold Engine.getPosition
    cases hb : s.buffer with
    | none => exact le_refl 0
    | some b =>
      cases hp : s.isPlaying with
      | true => exact clamp_le _ b.dur_nonneg
      | false => rw [hb] at h2b; exact h2b

/-- Witness for C5 at the reachable state `sPausedTwice`. -/
theorem position_always_clamped_witness :
    0 ≤ Engine.getPosition sPausedTwice 7 ∧
    Engine.getPosition sPausedTwice 7 ≤ Engine.getDuration sPausedTwice ∧
    0 ≤ sPausedTwice.pausedAt ∧ sPausedTwice.pausedAt ≤ Engine.getDuration sPausedTwice :=
  position_always_clamped
    (Reachable.pause 5 (Reachable.pause 2 (Reachable.play 0
      (Reachable.load 0 buf10 (Reachable.init 10))))) 7

/-- Claim C9: with no signal ever loaded, the getters are total and return
0, 0 and false. -/
theorem empty_engine_getters {s : EngineState} (h : Reachable s)
    (hb : s.buffer = none) (now : ℚ) :
    Engine.getPosition s now = 0 ∧ Engine.getDuration s = 0 ∧
    Engine.getIsPlaying s = false := by
  obtain ⟨_, _, h3, _⟩ := reachable_inv h
  refine ⟨?_, ?_, ?_⟩
  · unfold Engine.getPosition
    rw [hb]
  · unfold Engine.getDuration
    rw [hb]
  · unfold Engine.getIsPlaying
    cases hp : s.isPlaying with
    | false => rfl
    | true =>
      have hsome := h3 hp
      rw [hb] at hsome
      exact absurd hsome (by simp)

/-- Witness for C9 at the initial (EMPTY) state. -/
theorem empty_engine_getters_witness :
    Engine.getPosition (Engine.initState 44100) 3 = 0 ∧
    Engine.getDuration (Engine.initState 44100) = 0 ∧
    Engine.getIsPlaying (Engine.initState 44100) = false :=
  empty_engine_getters (Reachable.init 44100) rfl 3

/-- Claim C2 (evaluation at the failing input): pausing is NOT idempotent.
After `load` at t=0, `play` at t=0 (rate 1) and a first `pause` at t=2 the
position is 2; a second `pause` at t=5, with no intervening play, moves the
position to 5, because pause (engine.ts lines 187-190) unconditionally
recomputes `pausedAt` from `startedAt` and the clock even while paused,
discarding the `getPosition()` value stored on line 185. -/
theorem pause_twice_moves_position :
    Engine.getPosition sPausedOnce 5 = 2 ∧
    Engine.getPosition sPausedTwice 5 = 5 ∧
    Engine.getIsPlaying sPausedOnce = false := by
  refine ⟨?_, ?_, rfl⟩ <;>
    norm_num [sPausedTwice, sPausedOnce, sPlayed, sLoaded, buf10,
      Engine.getPosition, Engine.pause, Engine.play, Engine.load,
      Engine.stop, Engine.initState]

/-- Claim C1 counterexample: an engine with a successfully Loaded Signal on
which `play()` has never been called.  `renderWav` returns nothing (the
`if (!source) return;` guard, engine.ts line 243) instead of an encoded
byte sequence, and no `NoSignalLoadedError` rejection exists anywhere. -/
theorem renderWav_nothing_despite_load :
    sLoaded.buffer = some buf10 ∧ Engine.renderWav sLoaded = none :=
  ⟨rfl, rfl⟩

/-- Claim C1 (amended): `renderWav` returns an encoded result exactly when a
source node exists, i.e. when `play()` has run at least once since engine
creation; otherwise — including when a signal is loaded but never played,
and when nothing is loaded — it silently returns `undefined` rather than
rejecting with a `NoSignalLoadedError`. -/
theorem renderWav_some_iff_source {s : EngineState} (h : Reachable s) :
    (Engine.renderWav s).isSome = true ↔ s.hasSource = true := by
  obtain ⟨_, _, _, h4⟩ := reachable_inv h
  unfold Engine.renderWav
  cases hsrc : s.hasSource with
  | false => simp
  | true =>
    have hsome := h4 hsrc
    cases hb : s.buffer with
    | none => rw [hb] at hsome; exact absurd hsome (by simp)
    | some b => simp

/-- Witness for the amended C1 at the reachable state `sPlayed`. -/
theorem renderWav_some_iff_source_witness :
    (Engine.renderWav sPlayed).isSome = true ↔ sPlayed.hasSource = true :=
  renderWav_some_iff_source
    (Reachable.play 0 (Reachable.load 0 buf10 (Reachable.init 10)))

/-- Engine with `buf10` loaded, rate set to 0.5 and reverb tail set to 2 s,
but `play()` never called. -/
def sParams : EngineState :=
  Engine.setReverbLength (Engine.setPlaybackRate sLoaded (1/2)) 2

/-- `sPlayed` with rate set to 0.5 and reverb tail set to 2 s. -/
def sPlayedParams : EngineState :=
  Engine.setReverbLength (Engine.setPlaybackRate sPlayed (1/2)) 2

/-- Claim C4 counterexample: a Loaded Signal of duration 10 with rate
0.5 > 0 and tail 2 currently set, for which `renderWav` produces no output
buffer at all (no source node exists because `play()` was never called),
contrary to the claimed frame length ceil((10 / 0.5 + 2) * sampleRate). -/
theorem renderWav_no_buffer_for_loaded_params :
    sParams.buffer = some buf10 ∧ 0 < sParams.playbackRate ∧
    Engine.renderWav sParams = none := by
  refine ⟨rfl, ?_, rfl⟩
  norm_num [sParams, sLoaded, Engine.setReverbLength, Engine.setPlaybackRate,
    Engine.load, Engine.stop, Engine.pause, Engine.initState]

/-- Claim C4 (amended): whenever a source node exists (so `renderWav`
produces output), the output has exactly the channel count of the Loaded
Signal and `ceil((duration / playbackRate + reverbLength) * sampleRate)`
frames, for the currently set parameters. -/
theorem renderWav_frames {s : EngineState} (b : AudioBuf)
    (hb : s.buffer = some b) (hsrc : s.hasSource = true)
    (_hr : 0 < s.playbackRate) :
    Engine.renderWav s =
      some { numberOfChannels := b.numberOfChannels
             frames := ⌈(b.duration / s.playbackRate + s.reverbLength) * s.ctxRate⌉ } := by
  unfold Engine.renderWav
  rw [hsrc, hb]

/-- Witness for the amended C4: 10 s mono signal, sample rate 10, rate 0.5,
tail 2.0 gives ceil((10 / 0.5 + 2) * 10) = 220 frames, 1 channel. -/
theorem renderWav_frames_witness :
    Engine.renderWav sPlayedParams = some { numberOfChannels := 1, frames := 220 } := by
  rw [renderWav_frames buf10 rfl rfl (by
    norm_num [sPlayedParams, sPlayed, sLoaded, Engine.setReverbLength,
      Engine.setPlaybackRate, Engine.play, Engine.load, Engine.stop,
      Engine.pause, Engine.initState])]
  norm_num [sPlayedParams, sPlayed, sLoaded, buf10, Engine.setReverbLength,
    Engine.setPlaybackRate, Engine.play, Engine.load, Engine.stop,
    Engine.pause, Engine.initState]

/-- Claim C7 counterexample: a decode failure during `load` does change the
transport state.  `sPlayed` is PLAYING; after the failed load the engine is
paused at position 0, because `load` runs `stop()` unconditionally before
attempting to decode. -/
theorem load_failure_changes_transport :
    sPlayed.isPlaying = true ∧
    (Engine.loadFail sPlayed 3).isPlaying = false ∧
    (Engine.loadFail sPlayed 3).pausedAt = 0 :=
  ⟨rfl, rfl, rfl⟩

/-- Claim C7 (amended): a load whose decode fails preserves the previously
Loaded Signal (the buffer is not destroyed), but does not leave the
transport untouched: the engine ends up paused at position 0 because
`stop()` runs before the decode attempt. -/
theorem loadFail_preserves_signal {s : EngineState} (b : AudioBuf) (now : ℚ)
    (hb : s.buffer = some b) :
    (Engine.loadFail s now).buffer = some b ∧
    (Engine.loadFail s now).isPlaying = false ∧
    (Engine.loadFail s now).pausedAt = 0 := by
  unfold Engine.loadFail Engine.stop Engine.pause
  rw [hb]
  exact ⟨rfl, rfl, rfl⟩

/-- Witness for the amended C7 at the playing state `sPlayed`. -/
theorem loadFail_preserves_signal_witness :
    (Engine.loadFail sPlayed 3).buffer = some buf10 ∧
    (Engine.loadFail sPlayed 3).isPlaying = false ∧
    (Engine.loadFail sPlayed 3).pausedAt = 0 :=
  loadFail_preserves_signal buf10 3 rfl

/-- Claim C8: when the active source reaches its natural end with no
intervening manual pause, stop or seek (all of which set `manualEnd`), the
`onended` handler fires `stop()`: the engine ends up not playing, with the
stored position reset to 0, and `getPosition` subsequently reports 0 at
every later clock value — never a freeze at the final frame. -/
theorem natural_end_pauses_at_zero {s : EngineState} (b : AudioBuf)
    (now now2 : ℚ) (hb : s.buffer = some b) (hm : s.manualEnd = false) :
    (Engine.onEnded s now).isPlaying = false ∧
    (Engine.onEnded s now).pausedAt = 0 ∧
    Engine.getPosition (Engine.onEnded s now) now2 = 0 := by
  unfold Engine.onEnded Engine.stop Engine.pause Engine.getPosition
  rw [hm, hb]
  exact ⟨rfl, rfl, rfl⟩

/-- Witness for C8 at the playing state `sPlayed` (where `manualEnd` is
false), with the natural end at clock time 11 and a query at time 12. -/
theorem natural_end_pauses_at_zero_witness :
    (Engine.onEnded sPlayed 11).isPlaying = false ∧
    (Engine.onEnded sPlayed 11).pausedAt = 0 ∧
    Engine.getPosition (Engine.onEnded sPlayed 11) 12 = 0 :=
  natural_end_pauses_at_zero buf10 11 12 rfl rfl

/-- Claim C6: every sample is hard-clamped to [-1, 1] before scaling
(negative values by 32768, non-negative by 32767); the resulting 16-bit
store never overflows or wraps for any input, and 2.0 encodes to exactly
32767 while -2.0 encodes to exactly -32768. -/
theorem wav_sample_encoding :
    (∀ x : ℚ, wavEncodeSample x = jsTrunc (scaleSample x) ∧
      -32768 ≤ wavEncodeSample x ∧ wavEncodeSample x ≤ 32767) ∧
    wavEncodeSample 2 = 32767 ∧ wavEncodeSample (-2) = -32768 := by
  have hclamp : ∀ x : ℚ, -1 ≤ clampSample x ∧ clampSample x ≤ 1 := by
    intro x
    exact ⟨le_max_left _ _, max_le (by norm_num) (min_le_left _ _)⟩
  have hscale : ∀ x : ℚ, -32768 ≤ scaleSample x ∧ scaleSample x ≤ 32767 := by
    intro x
    obtain ⟨hl, hr⟩ := hclamp x
    unfold scaleSample
    by_cases hneg : clampSample x < 0
    · rw [if_pos hneg]
      constructor <;> nlinarith
    · rw [if_neg hneg]
      push_neg at hneg
      constructor <;> nlinarith
  have htrunc : ∀ y : ℚ, -32768 ≤ y → y ≤ 32767 →
      -32768 ≤ jsTrunc y ∧ jsTrunc y ≤ 32767 := by
    intro y hy1 hy2
    unfold jsTrunc
    by_cases h0 : 0 ≤ y
    · rw [if_pos h0]
      constructor
      · have : (0 : ℤ) ≤ ⌊y⌋ := Int.floor_nonneg.mpr h0
        omega
      · have hle : (⌊y⌋ : ℚ) ≤ 32767 := le_trans (Int.floor_le y) hy2
        exact_mod_cast hle
    · rw [if_neg h0]
      push_neg at h0
      constructor
      · have hle : (-32768 : ℚ) ≤ (⌈y⌉ : ℚ) := le_trans hy1 (Int.le_ceil y)
        exact_mod_cast hle
      · have : ⌈y⌉ ≤ (0 : ℤ) := Int.ceil_le.mpr (by exact_mod_cast h0.le)
        omega
  have hwrap : ∀ z : ℤ, -32768 ≤ z → z ≤ 32767 → wrap16 z = z := by
    intro z hz1 hz2
    unfold wrap16
    omega
  refine ⟨?_, ?_, ?_⟩
  · intro x
    obtain ⟨hs1, hs2⟩ := hscale x
    obtain ⟨ht1, ht2⟩ := htrunc _ hs1 hs2
    have heq : wavEncodeSample x = jsTrunc (scaleSample x) := by
      unfold wavEncodeSample
      exact hwrap _ ht1 ht2
    exact ⟨heq, by rw [heq]; exact ht1, by rw [heq]; exact ht2⟩
  · have hc : clampSample 2 = 1 := by norm_num [clampSample]
    have hs : scaleSample 2 = 32767 := by
      unfold scaleSample
      rw [hc]
      norm_num
    have ht : jsTrunc (scaleSample 2) = 32767 := by
      rw [hs]
      unfold jsTrunc
      rw [if_pos (by norm_num : (0 : ℚ) ≤ 32767)]
      rw [show ((32767 : ℚ)) = ((32767 : ℤ) : ℚ) by norm_num, Int.floor_intCast]
    show wrap16 (jsTrunc (scaleSample 2)) = 32767
    rw [ht]
    unfold wrap16
    omega
  · have hc : clampSample (-2) = -1 := by norm_num [clampSample]
    have hs : scaleSample (-2) = -32768 := by
      unfold scaleSample
      rw [hc]
      norm_num
    have ht : jsTrunc (scaleSample (-2)) = -32768 := by
      rw [hs]
      unfold jsTrunc
      rw [if_neg (by norm_num : ¬ (0 : ℚ) ≤ -32768)]
      rw [show ((-32768 : ℚ)) = ((-32768 : ℤ) : ℚ) by norm_num, Int.ceil_intCast]
    show wrap16 (jsTrunc (scaleSample (-2))) = -32768
    rw [ht]
    unfold wrap16
    omega

/-- Claim C10: the effect-parameter setters perform no validation or
clamping — for every value, in every engine state, the setter stores the
value unchanged and the matching getter returns it exactly. -/
theorem setters_store_verbatim (s : EngineState) (v : ℚ) :
    Engine.getPlaybackRate (Engine.setPlaybackRate s v) = v ∧
    Engine.getReverbVolume (Engine.setReverbVolume s v) = v ∧
    Engine.getReverbLength (Engine.setReverbLength s v) = v :=
  ⟨rfl, rfl, rfl⟩

/-- Claim C3 counterexample: at sample rate 10 and tail 0.55 s the code
generates floor(10 * 0.55) = 5 samples per channel, while the claimed
round(10 * 0.55) = 6; the two disagree. -/
theorem ir_length_floor_not_round :
    (makeImpulseResponse (fun _ _ => 1/2) (fun b _ => b) 10 (11/20) (14/5)).length = 5 ∧
    irLenSpec 10 (11/20) = 6 ∧
    (makeImpulseResponse (fun _ _ => 1/2) (fun b _ => b) 10 (11/20) (14/5)).length ≠
      irLenSpec 10 (11/20) := by
  have h1 : (makeImpulseResponse (fun _ _ => 1/2) (fun b _ => b) 10 (11/20) (14/5)).length
      = irLen 10 (11/20) := rfl
  have h2 : irLen 10 (11/20) = 5 := by
    unfold irLen
    norm_num
    rfl
  have h3 : irLenSpec 10 (11/20) = 6 := by
    unfold irLenSpec
    rw [show (10 : ℚ) * (11/20) = 11/2 by norm_num, round_eq,
        show (11 : ℚ)/2 + 1/2 = 6 by norm_num,
        show ((6 : ℚ)) = ((6 : ℤ) : ℚ) by norm_num, Int.floor_intCast]
    rfl
  rw [h1, h2, h3]
  exact ⟨rfl, rfl, by norm_num⟩

/-- Claim C3 (amended): the generated impulse response has two channels and
length max(1, floor(sampleRate * tailSeconds)) (floor, not round), and for
each channel independently each sample i in [0, length) equals a uniform
draw in [-1, 1) (namely Math.random() * 2 - 1 with Math.random() in [0,1))
multiplied by pow(1 - i / length, decayShape). -/
theorem makeImpulseResponse_samples (rand : ℕ → ℕ → ℚ) (pw : ℚ → ℚ → ℚ)
    (sr seconds decay : ℚ) (ch i : ℕ)
    (hch : ch < 2) (hi : i < irLen sr seconds)
    (hr0 : 0 ≤ rand ch i) (hr1 : rand ch i < 1) :
    (makeImpulseResponse rand pw sr seconds decay).numberOfChannels = 2 ∧
    (makeImpulseResponse rand pw sr seconds decay).length
      = max 1 (Int.toNat ⌊sr * seconds⌋) ∧
    ((makeImpulseResponse rand pw sr seconds decay).data.getD ch []).getD i 0 =
      (rand ch i * 2 - 1) * pw (1 - (i : ℚ) / (irLen sr seconds : ℚ)) decay ∧
    -1 ≤ rand ch i * 2 - 1 ∧ rand ch i * 2 - 1 < 1 := by
  refine ⟨rfl, rfl, ?_, by linarith, by linarith⟩
  unfold makeImpulseResponse
  simp only [List.getD_eq_getElem?_getD, List.getElem?_map, List.getElem?_range,
    hch, hi, if_pos, Option.map_some', Option.getD_some]

/-- Witness for the amended C3: sample rate 10, tail 1 s, decay 3, draw
1/2 everywhere, pow taken as addition, channel 1, sample 2. -/
theorem makeImpulseResponse_samples_witness :
    (makeImpulseResponse (fun _ _ => (1:ℚ)/2) (fun b e => b + e) 10 1 3).numberOfChannels = 2 ∧
    (makeImpulseResponse (fun _ _ => (1:ℚ)/2) (fun b e => b + e) 10 1 3).length
      = max 1 (Int.toNat ⌊(10 : ℚ) * 1⌋) ∧
    (((makeImpulseResponse (fun _ _ => (1:ℚ)/2) (fun b e => b + e) 10 1 3).data.getD 1 []).getD 2 0 =
      ((1:ℚ)/2 * 2 - 1) * ((1 - (2 : ℚ) / (irLen 10 1 : ℚ)) + 3)) ∧
    -1 ≤ (1:ℚ)/2 * 2 - 1 ∧ (1:ℚ)/2 * 2 - 1 < 1 := by
  have hlen : irLen 10 1 = 10 := by
    unfold irLen
    rw [show (10 : ℚ) * 1 = ((10 : ℤ) : ℚ) by norm_num, Int.floor_intCast]
    rfl
  exact makeImpulseResponse_samples (fun _ _ => (1:ℚ)/2) (fun b e => b + e) 10 1 3 1 2
    (by norm_num) (by rw [hlen]; norm_num) (by norm_num) (by norm_num)
